import Mathlib

/-!
Verification of the vexide/pros robot-runtime slice: the cooperative
executor / reactor public API (`src/pros/src/async_runtime/mod.rs`), the
critical-section primitive of `vexide-core`, the LCD button driver
(`src/packages/pros/src/lcd/buttons.rs`), the ADI gyro driver
(`src/packages/pros/src/devices/adi/gyro.rs`) and the AI vision sensor
driver (`src/packages/vexide-devices/src/smart/ai_vision.rs`).

Pure functions of the Rust source become Lean functions; SDK calls become
explicit inputs (the value the SDK returned); stateful code becomes
explicit state passing.  A fallible Rust call is modelled by `Outcome`,
which distinguishes a normal return, an error return and a panic.
-/

namespace Vexide

/-- Possible outcomes of a fallible Rust call: a normal return (`Ok`),
an error return (`Err`), or a panic with its message. -/
inductive Outcome (ε α : Type) where
  | ok (val : α)
  | err (e : ε)
  | panicked (msg : String)
deriving DecidableEq

/-! ## LCD buttons — `src/packages/pros/src/lcd/buttons.rs` -/

/-- `ButtonsState`: a snapshot of the state of the buttons on the llemu. -/
structure ButtonsState where
  left_pressed : Bool
  middle_pressed : Bool
  right_pressed : Bool
deriving DecidableEq, Repr

/-- `read_buttons`: the raw result of `pros_sys::lcd_read_buttons()` is the
input `bit_mask`; each flag is computed as `bit_mask & bit == bit_mask`,
exactly as in the source. -/
def read_buttons (bit_mask : Nat) : ButtonsState :=
  { left_pressed := bit_mask &&& 1 == bit_mask
    middle_pressed := bit_mask &&& 2 == bit_mask
    right_pressed := bit_mask &&& 4 == bit_mask }

/-- `Button`: the three buttons on the llemu. -/
inductive Button where
  | left
  | middle
  | right
deriving DecidableEq

/-- `ButtonCallbacks`: the interrupt-safe container (a `Mutex` in the
source) holding one optional registered closure per button.  Closures are
represented by an arbitrary type `κ`. -/
structure ButtonCallbacks (κ : Type) where
  left_cb : Option κ
  middle_cb : Option κ
  right_cb : Option κ

/-- `button_0_cb`: the statically-known `extern "C"` entry point for the
left button.  It reads the currently-registered closure from the
interrupt-safe container and calls it if present; the model returns the
closure that gets called, `none` when the slot is empty and no call
happens. -/
def button_0_cb {κ : Type} (cbs : ButtonCallbacks κ) : Option κ :=
  cbs.left_cb

/-- `button_1_cb`: the entry point for the middle button. -/
def button_1_cb {κ : Type} (cbs : ButtonCallbacks κ) : Option κ :=
  cbs.middle_cb

/-- `button_2_cb`: the entry point for the right button. -/
def button_2_cb {κ : Type} (cbs : ButtonCallbacks κ) : Option κ :=
  cbs.right_cb

/-- The fixed entry point the hardware invokes for each button: `register`
passes `button_0_cb` to `lcd_register_btn0_cb`, `button_1_cb` to
`lcd_register_btn1_cb` and `button_2_cb` to `lcd_register_btn2_cb`. -/
def entry_point {κ : Type} (b : Button) : ButtonCallbacks κ → Option κ :=
  match b with
  | .left => button_0_cb
  | .middle => button_1_cb
  | .right => button_2_cb

/-- The container slot that belongs to button `b` (`left_cb`, `middle_cb`
or `right_cb`). -/
def slot_of {κ : Type} (b : Button) (cbs : ButtonCallbacks κ) : Option κ :=
  match b with
  | .left => cbs.left_cb
  | .middle => cbs.middle_cb
  | .right => cbs.right_cb

/-- `register`: stores the closure into the slot for `button` and then
registers the fixed entry point with the SDK.  `sdk_ok` is the success
value returned by `lcd_register_btnN_cb`; when it is `false` the source
panics. -/
def register {κ : Type} (cb : κ) (button : Button) (sdk_ok : Bool)
    (cbs : ButtonCallbacks κ) : Outcome Empty (ButtonCallbacks κ) :=
  let cbs' : ButtonCallbacks κ :=
    match button with
    | .left => { cbs with left_cb := some cb }
    | .middle => { cbs with middle_cb := some cb }
    | .right => { cbs with right_cb := some cb }
  if sdk_ok then .ok cbs'
  else .panicked "Setting button callback failed, even though lcd initialization was attempted."

/-! ## ADI gyro — `src/packages/pros/src/devices/adi/gyro.rs` -/

/-- `pros_sys::PROS_ERR`, the error sentinel of the PROS SDK (`i32::MAX`). -/
def PROS_ERR : Int := 2147483647

/-- `AdiError`: the error type returned by ADI device drivers.  Its
variants are outside the visible slice; the model keeps the single fact
the claims use, that `bail_on` builds it from the current `errno`. -/
inductive AdiError where
  | fromErrno (errno : Int)
deriving DecidableEq

/-- Modelled from the spec: the `bail_on!` macro of `pros/src/error.rs`
is not under the visible slice; per the spec, hardware errors are
"surfaced by the device-driver collaborators as ordinary result values",
so `bail_on` returns `Err` exactly when the SDK call result equals the
error sentinel and passes the raw result through otherwise. -/
def bail_on (errno : Int) (sentinel : Int) (res : Int) : Outcome AdiError Int :=
  if res = sentinel then .err (.fromErrno errno) else .ok res

/-- `AdiGyro`: wraps the raw `ext_adi_gyro_t` handle. -/
structure AdiGyro where
  raw : Int
deriving DecidableEq

namespace AdiGyro

/-- `AdiGyro::new`: `sdk_res` is the value returned by
`pros_sys::ext_adi_gyro_init`; `errno` is the thread's errno value read
when the sentinel is hit. -/
def new (errno : Int) (sdk_res : Int) : Outcome AdiError AdiGyro :=
  match bail_on errno PROS_ERR sdk_res with
  | .ok raw => .ok { raw := raw }
  | .err e => .err e
  | .panicked m => .panicked m

/-- `AdiGyro::value`: `sdk_res` is the value returned by
`pros_sys::ext_adi_gyro_get`.  The Rust return type is `f64`; the model
uses `Int`, which preserves the exact sentinel comparison the code
performs. -/
def value (errno : Int) (sdk_res : Int) : Outcome AdiError Int :=
  bail_on errno PROS_ERR sdk_res

end AdiGyro

/-! ## AI vision sensor — `src/packages/vexide-devices/src/smart/ai_vision.rs` -/

/-- `PortError`: generic smart-port error.  Its definition lives outside
the visible slice; the claims treat it opaquely, so a placeholder variant
set suffices. -/
inductive PortError where
  | disconnected
  | incorrectDevice
deriving DecidableEq

/-- `AiVisionError`: errors that can occur when using a vision sensor. -/
inductive AiVisionError where
  | invalidObject
  | port (source : PortError)
deriving DecidableEq

/-- `ObjectType` (`#[repr(u8)]` in the source). -/
inductive ObjectType where
  | unknown
  | color
  | code
  | model
  | aprilTag
  | all
deriving DecidableEq

/-- `impl From<u8> for ObjectType`: 0, 1, 2, 4, 8, 63 map to the named
variants, everything else to `Unknown`. -/
def ObjectType.fromU8 (value : Nat) : ObjectType :=
  match value with
  | 0 => .unknown
  | 1 => .color
  | 2 => .code
  | 4 => .model
  | 8 => .aprilTag
  | 63 => .all
  | _ => .unknown

/-- The `color` view of the object payload union (u16 fields). -/
structure ColorData where
  xoffset : Nat
  yoffset : Nat
  width : Nat
  height : Nat
  angle : Nat
deriving DecidableEq

/-- The `model` view of the object payload union (u16 fields). -/
structure ModelData where
  xoffset : Nat
  yoffset : Nat
  width : Nat
  height : Nat
  score : Nat
deriving DecidableEq

/-- The `tag` view of the object payload union (i16 fields). -/
structure TagData where
  x0 : Int
  y0 : Int
  x1 : Int
  y1 : Int
  x2 : Int
  y2 : Int
  x3 : Int
  y3 : Int
deriving DecidableEq

/-- The payload union of `V5_DeviceAiVisionObject`: the SDK writes the
member selected by `id`, and `try_from` reads only that member, so the
model carries all three views. -/
structure ObjectPayload where
  color : ColorData
  model : ModelData
  tag : TagData
deriving DecidableEq

/-- `V5_DeviceAiVisionObject`: a raw object as reported by the device. -/
structure V5_DeviceAiVisionObject where
  id : Nat
  object : ObjectPayload
deriving DecidableEq

/-- `AiVisionObjectData`: the converted object payload.  `angle` is
`data.angle as f64 / 10.0` in the source, modelled exactly as a rational;
`mint::Point2<i16>` becomes a pair of integers. -/
inductive AiVisionObjectData where
  | color (x_pos y_pos width height : Nat) (angle : Rat)
  | aprilTag (point1 point2 point3 point4 : Int × Int)
  | model (x_pos y_pos width height confidence : Nat)
deriving DecidableEq

/-- `AiVisionObject`: id plus converted data. -/
structure AiVisionObject where
  id : Nat
  data : AiVisionObjectData
deriving DecidableEq

/-- `impl TryFrom<V5_DeviceAiVisionObject> for AiVisionObject`: converts
the raw object according to `ObjectType::from(id)`; `Color`, `Model` and
`AprilTag` succeed, every other variant returns
`Err(AiVisionError::InvalidObject)`. -/
def AiVisionObject.try_from (value : V5_DeviceAiVisionObject) :
    Outcome AiVisionError AiVisionObject :=
  match ObjectType.fromU8 value.id with
  | .color =>
      let d := value.object.color
      .ok { id := value.id
            data := .color d.xoffset d.yoffset d.width d.height ((d.angle : Rat) / 10) }
  | .model =>
      let d := value.object.model
      .ok { id := value.id
            data := .model d.xoffset d.yoffset d.width d.height d.score }
  | .aprilTag =>
      let d := value.object.tag
      .ok { id := value.id
            data := .aprilTag (d.x0, d.y0) (d.x1, d.y1) (d.x2, d.y2) (d.x3, d.y3) }
  | _ => .err .invalidObject

/-- The state of an `AiVisionSensor` and its attached device that the
claims depend on: the result of `validate_port()` (`none` = valid) and the
objects the device currently reports (`vexDeviceAiVisionObjectCountGet`
returns their count, `vexDeviceAiVisionObjectGet i` the i-th). -/
structure AiVisionDevice where
  portCheck : Option PortError
  objectList : List V5_DeviceAiVisionObject

/-- `AiVisionSensor::num_objects`: `self.validate_port()?`, then the
device's object count. -/
def num_objects (dev : AiVisionDevice) : Outcome AiVisionError Nat :=
  match dev.portCheck with
  | some e => .err (.port e)
  | none => .ok dev.objectList.length

/-- The `for i in 0..num_objects` loop body of `AiVisionSensor::objects`:
convert each raw object in order with `try_into()?`, pushing the results;
the first failing conversion aborts the whole call with its error. -/
def objectsLoop : List V5_DeviceAiVisionObject → Outcome AiVisionError (List AiVisionObject)
  | [] => .ok []
  | o :: rest =>
    match AiVisionObject.try_from o with
    | .ok a =>
      match objectsLoop rest with
      | .ok l => .ok (a :: l)
      | .err e => .err e
      | .panicked m => .panicked m
    | .err e => .err e
    | .panicked m => .panicked m

/-- `AiVisionSensor::objects`: `self.num_objects()?`, then the conversion
loop over the device's objects. -/
def objects (dev : AiVisionDevice) : Outcome AiVisionError (List AiVisionObject) :=
  match num_objects dev with
  | .ok _ => objectsLoop dev.objectList
  | .err e => .err e
  | .panicked m => .panicked m

/-- `AiVisionSensor::set_mode`: `self.validate_port()?` followed by
`todo!()` — an error when the port is invalid, a panic otherwise. -/
def set_mode (dev : AiVisionDevice) : Outcome AiVisionError Unit :=
  match dev.portCheck with
  | some e => .err (.port e)
  | none => .panicked "not yet implemented"

/-! ## Critical section — `vexide-core`

`src/packages/vexide-core/src/lib.rs` declares `pub mod critical_section`
but the module body is not in the visible slice, so the primitive is
modelled from the spec.  The interrupt-enable state of the core is a
`Bool` (`true` = interrupts enabled). -/

/-- Modelled from the spec: the `critical_section` module of
`vexide-core` (its body is missing from the slice).  "`enter()` disables
the core's interrupts and returns a restore token" — the token is the
previous interrupt-enable state, the new state is disabled. -/
def cs_enter (int_enabled : Bool) : Bool × Bool :=
  (int_enabled, false)

/-- Modelled from the spec: "`exit(token)` restores the interrupt-enable
state captured at the matching `enter()`". -/
def cs_exit (token : Bool) (_int_enabled : Bool) : Bool :=
  token

/-- Performs `n` nested `cs_enter` calls from state `s`, returning the
captured tokens (outermost first), the trace of interrupt-enable states
observed after each entry, and the final state. -/
def cs_enters : Nat → Bool → List Bool × List Bool × Bool
  | 0, s => ([], [], s)
  | n + 1, s =>
    let (tok, s1) := cs_enter s
    let (toks, states, sf) := cs_enters n s1
    (tok :: toks, s1 :: states, sf)

/-- Performs one `cs_exit` per token, consuming the tokens in order,
returning the trace of interrupt-enable states observed after each
exit. -/
def cs_exits : List Bool → Bool → List Bool
  | [], _ => []
  | t :: ts, s =>
    let s1 := cs_exit t s
    s1 :: cs_exits ts s1

/-- The full state trace of `n` nested entries followed by the `n`
matching exits (tokens consumed innermost-first, i.e. in LIFO order),
starting from interrupt-enable state `s0`: one observed state per entry
and one per exit, the last being the final state. -/
def cs_trace (n : Nat) (s0 : Bool) : List Bool :=
  let (toks, enter_states, s_mid) := cs_enters n s0
  enter_states ++ cs_exits toks.reverse s_mid

/-! ## Executor and reactor — `src/pros/src/async_runtime/mod.rs`

The public API (`spawn`, `block_on`, `complete_all`) delegates to the
`executor` and `reactor` submodules, whose bodies are not in the visible
slice; the run loop, task lifecycle and wake delivery are therefore
modelled from the spec (§3, §4.3, §4.4): a task is a suspended
computation advanced by polling, each poll either completes the task,
suspends it on a reactor condition, or leaves it runnable for the next
pass (its wake fired during the poll); `notify` moves every task waiting
on a condition to `Runnable`; a pass polls exactly the tasks runnable at
its start, in order. -/

/-- A reactor condition identifier. -/
abbrev Cond := Nat

/-- Modelled from the spec: "a step function returns either Done(output)
or Suspended", and "the only way to signal Suspended also takes the
condition to register".  `yielded` is a suspension whose wake was
delivered during the poll itself (the task stays runnable), which is how
a perpetually-runnable task behaves. -/
inductive PollResult (α : Type) where
  | done (out : α)
  | suspended (cond : Cond)
  | yielded
deriving DecidableEq

/-- Task lifecycle states the claims mention: `Runnable` (enqueued to be
polled), `Waiting` (suspended on a reactor condition), `Completed`
(output stored, never polled again). -/
inductive Status (α : Type) where
  | runnable
  | waiting (cond : Cond)
  | completed (out : α)
deriving DecidableEq

/-- A task: its suspended computation (`comp n` is the result of its
n-th poll), how many times the executor has polled it, and its lifecycle
state.  The output slot of the spec is the payload of `completed`. -/
structure Task (α : Type) where
  comp : Nat → PollResult α
  polls : Nat
  status : Status α

/-- The executor's task set, in spawn order; a task's handle is its
index. -/
abbrev ExecState (α : Type) := List (Task α)

/-- A freshly spawned task: never polled, enqueued runnable. -/
def mkTask {α : Type} (comp : Nat → PollResult α) : Task α :=
  { comp := comp, polls := 0, status := .runnable }

/-- `spawn`: wraps the computation as a new task in `Runnable` state and
enqueues it; its handle is the index `s.length`. -/
def spawn {α : Type} (comp : Nat → PollResult α) (s : ExecState α) : ExecState α :=
  s ++ [mkTask comp]

/-- The effect of `notify c` on one task: a task waiting on `c` becomes
runnable; every other task is untouched. -/
def notifyTask {α : Type} (c : Cond) (t : Task α) : Task α :=
  match t.status with
  | .waiting c2 => if c2 = c then { t with status := .runnable } else t
  | _ => t

/-- Modelled from the spec: "`notify(condition)` records that
`condition` fired and moves every interested task into Runnable".
Already-runnable and completed tasks are untouched, so a second wake for
the same task "collapses into a single pending wake". -/
def notify {α : Type} (c : Cond) (s : ExecState α) : ExecState α :=
  s.map (notifyTask c)

/-- One pass-step of a single task.  `fired` lists the conditions
notified from interrupt context while the pass runs.  A completed task is
never touched again; a waiting task is not polled — at most its wake is
recorded, making it runnable for the next pass; a runnable task is polled
once, and a wake that arrives during the poll (its suspension condition
is in `fired`) is recorded for the next poll rather than lost. -/
def pollTask {α : Type} (fired : List Cond) (t : Task α) : Task α :=
  match t.status with
  | .completed _ => t
  | .waiting c => if c ∈ fired then { t with status := .runnable } else t
  | .runnable =>
    match t.comp t.polls with
    | .done v => { t with polls := t.polls + 1, status := .completed v }
    | .suspended c =>
      { t with
        polls := t.polls + 1
        status := if c ∈ fired then .runnable else .waiting c }
    | .yielded => { t with polls := t.polls + 1, status := .runnable }

/-- One pass of the run loop: every task runnable at pass start is polled
exactly once, in queue order; tasks woken during the pass (by `fired` or
by their own immediate wake) become runnable but are polled only on a
subsequent pass. -/
def runPass {α : Type} (fired : List Cond) (s : ExecState α) : ExecState α :=
  s.map (pollTask fired)

/-- `j` consecutive passes with no interrupt activity. -/
def passes {α : Type} : Nat → ExecState α → ExecState α
  | 0, s => s
  | j + 1, s => runPass [] (passes j s)

/-- Whether the runnable queue is non-empty. -/
def anyRunnable {α : Type} (s : ExecState α) : Bool :=
  s.any fun t =>
    match t.status with
    | .runnable => true
    | _ => false

/-- `block_on(handle)`: drives the run loop pass by pass until the
designated task (index `i`) reaches `Completed`, then returns its stored
output.  `fuel` bounds the number of passes the model executes; `none`
means the call has not returned yet — with an abandoned task it blocks
forever, which the spec documents as inherent to cooperative
scheduling. -/
def block_on {α : Type} : Nat → Nat → ExecState α → Option α
  | 0, _, _ => none
  | fuel + 1, i, s =>
    match s[i]? with
    | none => none
    | some t =>
      match t.status with
      | .completed v => some v
      | _ => block_on fuel i (runPass [] s)

/-- The source's `block_on(future)`: `e.block_on(spawn(future))` — spawn
the computation, then block on the new task's handle. -/
def block_on_spawn {α : Type} (fuel : Nat) (comp : Nat → PollResult α)
    (s : ExecState α) : Option α :=
  block_on fuel s.length (spawn comp s)

/-- `complete_all`: drives the run loop until the runnable queue is
empty, returning no output value — only the (threaded) executor state,
from which callers read results via the handles they retained.  `fuel`
bounds the number of passes the model executes. -/
def complete_all {α : Type} : Nat → ExecState α → ExecState α
  | 0, s => s
  | fuel + 1, s =>
    if anyRunnable s then complete_all fuel (runPass [] s) else s

/-- The evolution of one task over `j` quiet passes (no interrupt
activity): tasks evolve independently because a poll touches only the
task being polled. -/
def taskSteps {α : Type} : Nat → Task α → Task α
  | 0, t => t
  | j + 1, t => pollTask [] (taskSteps j t)

/-- A sequence of `spawn` calls starting from the empty executor. -/
def spawnAll {α : Type} (comps : List (Nat → PollResult α)) : ExecState α :=
  comps.foldl (fun s c => spawn c s) []

/-! ## Helper lemmas -/

/-- If `m AND 2^t = m` then every bit of `m` other than bit `t` is clear,
so `m` cannot have two distinct bits set. -/
theorem and_mask_ne_self {m b t i j : Nat} (hb : b = 2 ^ t) (hij : i ≠ j)
    (hi : m.testBit i = true) (hj : m.testBit j = true) : ¬(m &&& b = m) := by
  subst hb
  intro h
  have clear : ∀ k : Nat, k ≠ t → m.testBit k = false := by
    intro k hk
    have h2 : (m &&& 2 ^ t).testBit k = m.testBit k := by rw [h]
    rw [Nat.testBit_and, Nat.testBit_two_pow_of_ne (Ne.symm hk), Bool.and_false] at h2
    exact h2.symm
  rcases eq_or_ne i t with rfl | hit
  · have hj' : j ≠ i := Ne.symm hij
    rw [clear j hj'] at hj
    exact Bool.false_ne_true hj
  · rw [clear i hit] at hi
    exact Bool.false_ne_true hi

/-! ## Claim theorems: device drivers and buttons -/

/-- C8: `read_buttons` reports a button as pressed exactly when
`bit_mask AND bit = bit_mask`; consequently the all-zero mask yields all
three flags `true`, and any mask with two or more bits set yields all
three flags `false`. -/
theorem c8_read_buttons_mask_comparison (m : Nat) :
    ((read_buttons m).left_pressed = true ↔ m &&& 1 = m) ∧
    ((read_buttons m).middle_pressed = true ↔ m &&& 2 = m) ∧
    ((read_buttons m).right_pressed = true ↔ m &&& 4 = m) ∧
    (m = 0 → read_buttons m = ⟨true, true, true⟩) ∧
    ((∃ i j, i ≠ j ∧ m.testBit i = true ∧ m.testBit j = true) →
      read_buttons m = ⟨false, false, false⟩) := by
  refine ⟨by simp [read_buttons], by simp [read_buttons], by simp [read_buttons], ?_, ?_⟩
  · rintro rfl
    decide
  · rintro ⟨i, j, hij, hi, hj⟩
    have k1 : ¬(m &&& 1 = m) := and_mask_ne_self (t := 0) (by norm_num) hij hi hj
    have k2 : ¬(m &&& 2 = m) := and_mask_ne_self (t := 1) (by norm_num) hij hi hj
    have k4 : ¬(m &&& 4 = m) := and_mask_ne_self (t := 2) (by norm_num) hij hi hj
    simp only [read_buttons, ButtonsState.mk.injEq]
    exact ⟨beq_eq_false_iff_ne.mpr k1, beq_eq_false_iff_ne.mpr k2, beq_eq_false_iff_ne.mpr k4⟩

/-- Witness for C8: mask 0 yields all pressed, mask 3 (two buttons held)
yields none pressed. -/
theorem c8_witness :
    read_buttons 0 = ⟨true, true, true⟩ ∧ read_buttons 3 = ⟨false, false, false⟩ :=
  ⟨(c8_read_buttons_mask_comparison 0).2.2.2.1 rfl,
   (c8_read_buttons_mask_comparison 3).2.2.2.2 ⟨0, 1, by decide, by decide, by decide⟩⟩

/-- C10: `set_mode` never returns `Ok`: it returns `Err` exactly when
port validation fails and panics (the `todo!()` stub) when validation
succeeds. -/
theorem c10_set_mode_never_ok (dev : AiVisionDevice) :
    (∀ u : Unit, set_mode dev ≠ .ok u) ∧
    (∀ e, dev.portCheck = some e → set_mode dev = .err (.port e)) ∧
    (dev.portCheck = none → set_mode dev = .panicked "not yet implemented") := by
  refine ⟨?_, ?_, ?_⟩ <;> cases h : dev.portCheck <;> simp [set_mode, h]

/-- Witness for C10: a sensor with a valid port panics in `set_mode`. -/
theorem c10_witness : set_mode ⟨none, []⟩ = .panicked "not yet implemented" :=
  (c10_set_mode_never_ok ⟨none, []⟩).2.2 rfl

/-- C6: hardware errors surface as `Result` values, never as panics:
`AdiGyro::new` and `AdiGyro::value` return `Err` exactly when the SDK
call reports `PROS_ERR` and `Ok` with the raw value otherwise, and
`num_objects` returns `Err` exactly when port validation fails and `Ok`
with the device's object count otherwise. -/
theorem c6_errors_as_result_values (errno sdk_res : Int) (dev : AiVisionDevice) :
    ((∃ e, AdiGyro.new errno sdk_res = .err e) ↔ sdk_res = PROS_ERR) ∧
    (sdk_res ≠ PROS_ERR → AdiGyro.new errno sdk_res = .ok ⟨sdk_res⟩) ∧
    ((∃ e, AdiGyro.value errno sdk_res = .err e) ↔ sdk_res = PROS_ERR) ∧
    (sdk_res ≠ PROS_ERR → AdiGyro.value errno sdk_res = .ok sdk_res) ∧
    ((∃ e, num_objects dev = .err e) ↔ dev.portCheck ≠ none) ∧
    (∀ e, dev.portCheck = some e → num_objects dev = .err (.port e)) ∧
    (dev.portCheck = none → num_objects dev = .ok dev.objectList.length) ∧
    (∀ msg, AdiGyro.new errno sdk_res ≠ .panicked msg) ∧
    (∀ msg, AdiGyro.value errno sdk_res ≠ .panicked msg) ∧
    (∀ msg, num_objects dev ≠ .panicked msg) := by
  refine ⟨?_, ?_, ?_, ?_, ?_, ?_, ?_, ?_, ?_, ?_⟩
  · rcases eq_or_ne sdk_res PROS_ERR with h | h <;> simp [AdiGyro.new, bail_on, h]
  · intro h
    simp [AdiGyro.new, bail_on, h]
  · rcases eq_or_ne sdk_res PROS_ERR with h | h <;> simp [AdiGyro.value, bail_on, h]
  · intro h
    simp [AdiGyro.value, bail_on, h]
  · cases h : dev.portCheck <;> simp [num_objects, h]
  · intro e he
    simp [num_objects, he]
  · intro h
    simp [num_objects, h]
  · rcases eq_or_ne sdk_res PROS_ERR with h | h <;> simp [AdiGyro.new, bail_on, h]
  · rcases eq_or_ne sdk_res PROS_ERR with h | h <;> simp [AdiGyro.value, bail_on, h]
  · cases h : dev.portCheck <;> simp [num_objects, h]

/-- Witness for C6: a non-sentinel SDK result round-trips through
`AdiGyro::new`, and a valid port yields the object count. -/
theorem c6_witness :
    AdiGyro.new 1 5 = .ok ⟨5⟩ ∧ num_objects ⟨none, []⟩ = .ok 0 :=
  ⟨(c6_errors_as_result_values 1 5 ⟨none, []⟩).2.1 (by decide),
   (c6_errors_as_result_values 1 5 ⟨none, []⟩).2.2.2.2.2.2.1 rfl⟩

/-- C7: the interrupt entry points are the fixed statically-known
trampolines, one per button; each reads the currently-registered slot of
the interrupt-safe container (calling nothing when the slot is `None`),
and after a successful `register(cb, b)` the entry point for `b` calls
exactly the most recently registered closure. -/
theorem c7_button_entry_points {κ : Type} (cb : κ) (b : Button)
    (cbs : ButtonCallbacks κ) :
    (entry_point (κ := κ) .left = button_0_cb ∧
      entry_point (κ := κ) .middle = button_1_cb ∧
      entry_point (κ := κ) .right = button_2_cb) ∧
    (∀ b2 cbs2, entry_point (κ := κ) b2 cbs2 = slot_of b2 cbs2) ∧
    (slot_of b cbs = none → entry_point b cbs = none) ∧
    (∃ cbs2, register cb b true cbs = .ok cbs2 ∧ entry_point b cbs2 = some cb) := by
  refine ⟨⟨rfl, rfl, rfl⟩, ?_, ?_, ?_⟩
  · intro b2 cbs2
    cases b2 <;> rfl
  · intro h
    cases b <;> simpa [entry_point, slot_of, button_0_cb, button_1_cb, button_2_cb] using h
  · cases b <;>
      exact ⟨_, rfl, rfl⟩

/-- Witness for C7: with all slots empty the left entry point calls
nothing, and after registering a closure the entry point calls it. -/
theorem c7_witness :
    entry_point Button.left (ButtonCallbacks.mk (none : Option Nat) none none) = none ∧
    ∃ cbs2, register 7 Button.left true (ButtonCallbacks.mk (none : Option Nat) none none) =
        .ok cbs2 ∧ entry_point Button.left cbs2 = some 7 :=
  ⟨(c7_button_entry_points 7 Button.left ⟨none, none, none⟩).2.2.1 rfl,
   (c7_button_entry_points 7 Button.left ⟨none, none, none⟩).2.2.2⟩

/-- `try_from` succeeds exactly when the raw id maps to `Color`, `Model`
or `AprilTag`. -/
theorem try_from_ok_iff (o : V5_DeviceAiVisionObject) :
    (∃ a, AiVisionObject.try_from o = .ok a) ↔
      (ObjectType.fromU8 o.id = .color ∨ ObjectType.fromU8 o.id = .model ∨
        ObjectType.fromU8 o.id = .aprilTag) := by
  cases h : ObjectType.fromU8 o.id <;> simp [AiVisionObject.try_from, h]

/-- `try_from` fails with `InvalidObject` on every id that does not map
to `Color`, `Model` or `AprilTag`. -/
theorem try_from_err_of_invalid (o : V5_DeviceAiVisionObject)
    (h : ¬(ObjectType.fromU8 o.id = .color ∨ ObjectType.fromU8 o.id = .model ∨
        ObjectType.fromU8 o.id = .aprilTag)) :
    AiVisionObject.try_from o = .err .invalidObject := by
  cases hid : ObjectType.fromU8 o.id <;> simp [hid] at h <;>
    simp [AiVisionObject.try_from, hid]

/-- The conversion loop fails with `InvalidObject` as soon as any raw
object in the list has an unconvertible id. -/
theorem objectsLoop_err_of_invalid (l : List V5_DeviceAiVisionObject)
    (h : ∃ o ∈ l, ¬(ObjectType.fromU8 o.id = .color ∨ ObjectType.fromU8 o.id = .model ∨
        ObjectType.fromU8 o.id = .aprilTag)) :
    objectsLoop l = .err .invalidObject := by
  induction l with
  | nil => simp at h
  | cons o rest ih =>
    rcases h with ⟨o2, ho2, hbad⟩
    rcases List.mem_cons.mp ho2 with rfl | hmem
    · simp [objectsLoop, try_from_err_of_invalid o2 hbad]
    · by_cases hhead : ObjectType.fromU8 o.id = .color ∨ ObjectType.fromU8 o.id = .model ∨
        ObjectType.fromU8 o.id = .aprilTag
      · obtain ⟨a, ha⟩ := (try_from_ok_iff o).mpr hhead
        simp [objectsLoop, ha, ih ⟨o2, hmem, hbad⟩]
      · simp [objectsLoop, try_from_err_of_invalid o hhead]

/-- When every raw object is convertible, the loop returns the converted
objects, one per raw object, in order. -/
theorem objectsLoop_ok_of_valid (l : List V5_DeviceAiVisionObject)
    (h : ∀ o ∈ l, ObjectType.fromU8 o.id = .color ∨ ObjectType.fromU8 o.id = .model ∨
        ObjectType.fromU8 o.id = .aprilTag) :
    ∃ out, objectsLoop l = .ok out ∧
      List.Forall₂ (fun o a => AiVisionObject.try_from o = .ok a) l out := by
  induction l with
  | nil => exact ⟨[], rfl, List.Forall₂.nil⟩
  | cons o rest ih =>
    obtain ⟨a, ha⟩ := (try_from_ok_iff o).mpr (h o (List.mem_cons_self o rest))
    obtain ⟨out, hout, hrel⟩ := ih (fun o2 h2 => h o2 (List.mem_cons_of_mem o h2))
    exact ⟨a :: out, by simp [objectsLoop, ha, hout], List.Forall₂.cons ha hrel⟩

/-- C9: with a valid port, `objects` returns `Err(InvalidObject)`
whenever any reported object has an id other than `Color`, `Model` or
`AprilTag` (in particular all `Code`, `All` and `Unknown` ids), without
returning any of the objects converted before the failing one; otherwise
it returns `Ok` with exactly one converted object per reported object, in
device order. -/
theorem c9_objects_conversion (dev : AiVisionDevice) (hport : dev.portCheck = none) :
    ((∃ o ∈ dev.objectList,
        ¬(ObjectType.fromU8 o.id = .color ∨ ObjectType.fromU8 o.id = .model ∨
          ObjectType.fromU8 o.id = .aprilTag)) →
      objects dev = .err .invalidObject) ∧
    ((∀ o ∈ dev.objectList,
        ObjectType.fromU8 o.id = .color ∨ ObjectType.fromU8 o.id = .model ∨
          ObjectType.fromU8 o.id = .aprilTag) →
      ∃ out, objects dev = .ok out ∧ out.length = dev.objectList.length ∧
        List.Forall₂ (fun o a => AiVisionObject.try_from o = .ok a) dev.objectList out) := by
  constructor
  · intro h
    simp [objects, num_objects, hport, objectsLoop_err_of_invalid dev.objectList h]
  · intro h
    obtain ⟨out, hout, hrel⟩ := objectsLoop_ok_of_valid dev.objectList h
    exact ⟨out, by simp [objects, num_objects, hport, hout], hrel.length_eq.symm, hrel⟩

/-- Witness for C9: an object with the `Code` id (2) is rejected, while a
`Color` object (id 1) converts. -/
theorem c9_witness :
    objects ⟨none, [⟨2, ⟨⟨0, 0, 0, 0, 0⟩, ⟨0, 0, 0, 0, 0⟩, ⟨0, 0, 0, 0, 0, 0, 0, 0⟩⟩⟩]⟩ =
      .err .invalidObject ∧
    ∃ out,
      objects ⟨none, [⟨1, ⟨⟨0, 0, 0, 0, 0⟩, ⟨0, 0, 0, 0, 0⟩, ⟨0, 0, 0, 0, 0, 0, 0, 0⟩⟩⟩]⟩ =
        .ok out ∧
      out.length = 1 ∧
      List.Forall₂ (fun o a => AiVisionObject.try_from o = .ok a)
        [⟨1, ⟨⟨0, 0, 0, 0, 0⟩, ⟨0, 0, 0, 0, 0⟩, ⟨0, 0, 0, 0, 0, 0, 0, 0⟩⟩⟩] out :=
  ⟨(c9_objects_conversion ⟨none, [⟨2, ⟨⟨0, 0, 0, 0, 0⟩, ⟨0, 0, 0, 0, 0⟩,
      ⟨0, 0, 0, 0, 0, 0, 0, 0⟩⟩⟩]⟩ rfl).1
    ⟨⟨2, ⟨⟨0, 0, 0, 0, 0⟩, ⟨0, 0, 0, 0, 0⟩, ⟨0, 0, 0, 0, 0, 0, 0, 0⟩⟩⟩, by simp, by decide⟩,
   (c9_objects_conversion ⟨none, [⟨1, ⟨⟨0, 0, 0, 0, 0⟩, ⟨0, 0, 0, 0, 0⟩,
      ⟨0, 0, 0, 0, 0, 0, 0, 0⟩⟩⟩]⟩ rfl).2 (by intro o ho; simp at ho; subst ho; left; rfl)⟩

/-- Entering `n` times from the interrupts-disabled state only captures
and observes "disabled". -/
theorem cs_enters_false (n : Nat) :
    cs_enters n false = (List.replicate n false, List.replicate n false, false) := by
  induction n with
  | zero => rfl
  | succ m ih => simp only [cs_enters, cs_enter, ih, List.replicate_succ]

/-- Closed form for `n + 1` nested entries: the first token captures the
initial state, every later token captures "disabled", every observed
state is "disabled", and the final state is "disabled". -/
theorem cs_enters_eq (n : Nat) (s : Bool) :
    cs_enters (n + 1) s =
      (s :: List.replicate n false, List.replicate (n + 1) false, false) := by
  simp only [cs_enters, cs_enter, cs_enters_false, List.replicate_succ]

/-- Each exit restores exactly the token it consumes, so the state trace
of a run of exits is the token list itself. -/
theorem cs_exits_eq_tokens (ts : List Bool) (s : Bool) : cs_exits ts s = ts := by
  induction ts generalizing s with
  | nil => rfl
  | cons t rest ih => simp only [cs_exits, cs_exit, ih t]

/-- C4: for every `N ≥ 1`, `N` nested critical-section entries followed
by the `N` matching exits end in exactly the initial interrupt-enable
state, interrupts are disabled at every point strictly between the first
entry and the last exit, and each exit restores exactly the state
captured by its matching enter. -/
theorem c4_critical_section_nesting (n : Nat) (s0 : Bool) (hn : 1 ≤ n) :
    (cs_trace n s0).getLast? = some s0 ∧
    (∀ st ∈ (cs_trace n s0).dropLast, st = false) ∧
    (∀ ts s, cs_exits ts s = ts) := by
  obtain ⟨m, rfl⟩ : ∃ m, n = m + 1 := ⟨n - 1, by omega⟩
  have htrace : cs_trace (m + 1) s0 =
      List.replicate (m + 1) false ++ (List.replicate m false ++ [s0]) := by
    simp [cs_trace, cs_enters_eq, cs_exits_eq_tokens, List.reverse_cons]
  refine ⟨?_, ?_, cs_exits_eq_tokens⟩
  · rw [htrace, ← List.append_assoc]
    exact List.getLast?_concat _
  · intro st hst
    rw [htrace, ← List.append_assoc, List.dropLast_concat, List.mem_append] at hst
    rcases hst with h | h <;> exact List.eq_of_mem_replicate h

/-- Witness for C4: two nested entries and exits from the
interrupts-enabled state. -/
theorem c4_witness :
    (cs_trace 2 true).getLast? = some true ∧ cs_exits [false, true] false = [false, true] :=
  ⟨(c4_critical_section_nesting 2 true (by decide)).1,
   (c4_critical_section_nesting 2 true (by decide)).2.2 [false, true] false⟩

/-- Per-index view of `j` quiet passes: tasks evolve independently. -/
theorem passes_getElem? {α : Type} (j : Nat) (s : ExecState α) (i : Nat) :
    (passes j s)[i]? = (s[i]?).map (taskSteps j) := by
  induction j with
  | zero => cases h : s[i]? <;> simp [passes, h, taskSteps]
  | succ m ih =>
    simp only [passes, runPass, List.getElem?_map, ih]
    cases h : s[i]? <;> simp [h, taskSteps]

/-- Evolution of an unconditional-progress task: a computation that
yields `k` times and then completes with `v` is runnable with `j` polls
after `j ≤ k` passes, and completed with exactly `k + 1` polls after any
further pass — it is never polled again once completed. -/
theorem taskSteps_progress {α : Type} (comp : Nat → PollResult α) (k : Nat) (v : α)
    (hd : comp k = .done v) (hy : ∀ j < k, comp j = .yielded) (j : Nat) :
    taskSteps j (mkTask comp) =
      if j ≤ k then { comp := comp, polls := j, status := .runnable }
      else { comp := comp, polls := k + 1, status := .completed v } := by
  induction j with
  | zero => simp [taskSteps, mkTask]
  | succ m ih =>
    rcases lt_trichotomy m k with hm | rfl | hm
    · simp only [taskSteps]
      rw [ih, if_pos hm.le, if_pos (show m + 1 ≤ k by omega)]
      simp [pollTask, hy m hm]
    · simp only [taskSteps]
      rw [ih, if_pos le_rfl, if_neg (show ¬(m + 1 ≤ m) by omega)]
      simp [pollTask, hd]
    · simp only [taskSteps]
      rw [ih, if_neg (show ¬(m ≤ k) by omega), if_neg (show ¬(m + 1 ≤ k) by omega)]
      simp [pollTask]

/-- A quiet pass does not touch a task that is not runnable. -/
theorem pollTask_nil_eq_self {α : Type} (t : Task α) (h : t.status ≠ .runnable) :
    pollTask [] t = t := by
  cases hs : t.status with
  | runnable => exact absurd hs h
  | waiting c => simp [pollTask, hs]
  | completed v => simp [pollTask, hs]

/-- With no runnable task, a quiet pass is a no-op: the executor has
reached the fixed point where only an external event makes progress. -/
theorem runPass_nil_of_no_runnable {α : Type} (s : ExecState α)
    (h : anyRunnable s = false) : runPass [] s = s := by
  induction s with
  | nil => rfl
  | cons t rest ih =>
    rw [anyRunnable, List.any_cons, Bool.or_eq_false_iff] at h
    obtain ⟨h1, h2⟩ := h
    have ht : t.status ≠ .runnable := by
      intro hs
      rw [hs] at h1
      simp at h1
    show pollTask [] t :: runPass [] rest = t :: rest
    rw [pollTask_nil_eq_self t ht, ih h2]

/-- A fixed state stays fixed over any number of passes. -/
theorem passes_of_fixed {α : Type} (s : ExecState α) (h : runPass [] s = s) (j : Nat) :
    passes j s = s := by
  induction j with
  | zero => rfl
  | succ m ih => rw [passes, ih, h]

/-- Passes can be peeled from the front as well as from the back. -/
theorem passes_front {α : Type} (j : Nat) (s : ExecState α) :
    passes (j + 1) s = passes j (runPass [] s) := by
  induction j generalizing s with
  | zero => rfl
  | succ m ih =>
    show runPass [] (passes (m + 1) s) = runPass [] (passes m (runPass [] s))
    rw [ih]

/-- `complete_all` performs exactly `fuel` quiet passes: stopping early
only happens at a fixed point, where the remaining passes are no-ops. -/
theorem complete_all_eq_passes {α : Type} (fuel : Nat) (s : ExecState α) :
    complete_all fuel s = passes fuel s := by
  induction fuel generalizing s with
  | zero => rfl
  | succ m ih =>
    by_cases h : anyRunnable s = true
    · rw [complete_all, if_pos h, ih, passes_front]
    · have hf : anyRunnable s = false := by simpa using h
      rw [complete_all, if_neg h,
        passes_of_fixed s (runPass_nil_of_no_runnable s hf) (m + 1)]

/-- Folding `spawn` over a list appends one fresh task per
computation. -/
theorem foldl_spawn_eq {α : Type} (comps : List (Nat → PollResult α))
    (acc : ExecState α) :
    comps.foldl (fun s c => spawn c s) acc = acc ++ comps.map mkTask := by
  induction comps generalizing acc with
  | nil => simp
  | cons c rest ih =>
    rw [List.foldl_cons, ih, spawn]
    simp

/-- A sequence of `spawn` calls from the empty executor yields one fresh
runnable task per computation, in spawn order. -/
theorem spawnAll_eq {α : Type} (comps : List (Nat → PollResult α)) :
    spawnAll comps = comps.map mkTask := by
  simpa using foldl_spawn_eq comps []

/-- C2: after spawning any sequence of computations and draining with
`complete_all`, every spawned task capable of unconditional progress (it
yields `k` times and then completes, never waiting on an external
condition) is `Completed` with its output stored, its body was driven to
completion by exactly `k + 1` polls, and it is never re-polled after
completion: its poll count stays `k + 1` for every sufficient fuel.
`complete_all` itself returns only the threaded executor state — no
output value; results live in the tasks, read via retained handles. -/
theorem c2_complete_all_drain {α : Type} (comps : List (Nat → PollResult α))
    (i : Nat) (c : Nat → PollResult α) (hc : comps[i]? = some c)
    (k : Nat) (v : α) (hd : c k = .done v) (hy : ∀ j < k, c j = .yielded)
    (fuel : Nat) (hfuel : k + 1 ≤ fuel) :
    (complete_all fuel (spawnAll comps))[i]? =
      some { comp := c, polls := k + 1, status := .completed v } := by
  rw [complete_all_eq_passes, passes_getElem?, spawnAll_eq, List.getElem?_map, hc]
  simp only [Option.map_some']
  rw [taskSteps_progress c k v hd hy fuel, if_neg (show ¬(fuel ≤ k) by omega)]

/-- Witness for C2: one immediately-completing task is completed with
output 7 after one pass, polled exactly once. -/
theorem c2_witness :
    (complete_all 1 (spawnAll [fun _ => PollResult.done (7 : Nat)]))[0]? =
      some { comp := fun _ => PollResult.done (7 : Nat), polls := 1,
             status := .completed 7 } :=
  c2_complete_all_drain [fun _ => PollResult.done 7] 0 (fun _ => PollResult.done 7) rfl
    0 7 rfl (fun j h => absurd h (Nat.not_lt_zero j)) 1 (by omega)

/-- `block_on` on a single unconditional-progress task: it returns the
task's output exactly when the fuel covers the `k + 1` polls needed plus
the final observation, and `none` before that. -/
theorem block_on_single_progress {α : Type} (comp : Nat → PollResult α) (k : Nat)
    (v : α) (hd : comp k = .done v) (hy : ∀ j < k, comp j = .yielded)
    (fuel j : Nat) :
    block_on fuel 0 [taskSteps j (mkTask comp)] =
      if k + 2 ≤ fuel + j ∧ 0 < fuel then some v else none := by
  induction fuel generalizing j with
  | zero => simp [block_on]
  | succ m ih =>
    rw [taskSteps_progress comp k v hd hy j]
    by_cases hj : j ≤ k
    · rw [if_pos hj]
      have step : block_on (m + 1) 0
            [({ comp := comp, polls := j, status := .runnable } : Task α)] =
          block_on m 0
            (runPass [] [({ comp := comp, polls := j, status := .runnable } : Task α)]) := by
        simp [block_on]
      have hrp : runPass []
            [({ comp := comp, polls := j, status := .runnable } : Task α)] =
          [taskSteps (j + 1) (mkTask comp)] := by
        have hp := taskSteps_progress comp k v hd hy j
        rw [if_pos hj] at hp
        show [pollTask [] ({ comp := comp, polls := j, status := .runnable } : Task α)] =
          [pollTask [] (taskSteps j (mkTask comp))]
        rw [hp]
      rw [step, hrp, ih (j + 1)]
      split_ifs with h1 h2 h2 <;> first | rfl | omega
    · rw [if_neg hj]
      have hdone : block_on (m + 1) 0
          [({ comp := comp, polls := k + 1, status := .completed v } : Task α)] =
            some v := by
        simp [block_on]
      rw [hdone, if_pos ⟨by omega, by omega⟩]

/-- C1: for a computation that eventually completes with output `v`
without external dependency (`k` yields then done), `block_on(spawn(f))`
returns exactly `v` — with enough passes it returns `v`, with fewer it
has not yet returned, and whenever it returns at all the value is `v`. -/
theorem c1_block_on_round_trip {α : Type} (comp : Nat → PollResult α) (k : Nat)
    (v : α) (hd : comp k = .done v) (hy : ∀ j < k, comp j = .yielded) :
    block_on_spawn (k + 2) comp [] = some v ∧
    (∀ fuel, fuel ≤ k + 1 → block_on_spawn fuel comp [] = none) ∧
    (∀ fuel w, block_on_spawn fuel comp [] = some w → w = v) := by
  have base : ∀ fuel, block_on_spawn fuel comp [] =
      if k + 2 ≤ fuel ∧ 0 < fuel then some v else none := by
    intro fuel
    have h := block_on_single_progress comp k v hd hy fuel 0
    simpa [block_on_spawn, spawn, taskSteps] using h
  refine ⟨?_, ?_, ?_⟩
  · rw [base, if_pos ⟨le_rfl, by omega⟩]
  · intro fuel hf
    rw [base, if_neg (by omega)]
  · intro fuel w hw
    rw [base] at hw
    split_ifs at hw
    exact (Option.some.inj hw).symm

/-- Witness for C1: a computation that immediately returns 42
round-trips through `block_on(spawn(f))`. -/
theorem c1_witness :
    block_on_spawn 2 (fun _ => PollResult.done (42 : Nat)) [] = some 42 :=
  (c1_block_on_round_trip (fun _ => PollResult.done 42) 0 42 rfl
    (fun j h => absurd h (Nat.not_lt_zero j))).1

/-- C3: a task suspended on condition `c` is not polled again until
`notify c` is observed; repeated notifications collapse into one pending
wake (notify is idempotent and wakes without polling); after the wake the
task is polled exactly once on the next pass, and if it suspends again it
stays unpolled until the next notification; a wake arriving while the
task is being polled is recorded for the next poll, never lost. -/
theorem c3_wake_coalescing {α : Type} (t : Task α) (c : Cond) (fired : List Cond)
    (s : ExecState α) :
    (t.status = .waiting c → c ∉ fired → pollTask fired t = t) ∧
    (notify c (notify c s) = notify c s) ∧
    (t.status = .waiting c → notify c [t] = [{ t with status := .runnable }]) ∧
    (t.status = .waiting c → ∀ u ∈ runPass fired (notify c [t]),
      u.polls = t.polls + 1) ∧
    (t.status = .waiting c → ∀ c', t.comp t.polls = .suspended c' → c' ∉ fired →
      runPass fired (notify c [t]) =
        [{ t with polls := t.polls + 1, status := .waiting c' }]) ∧
    (t.status = .runnable → ∀ c', t.comp t.polls = .suspended c' → c' ∈ fired →
      pollTask fired t = { t with polls := t.polls + 1, status := .runnable }) := by
  refine ⟨?_, ?_, ?_, ?_, ?_, ?_⟩
  · intro hs hc
    simp [pollTask, hs, hc]
  · have hstep : ∀ t0 : Task α, notifyTask c (notifyTask c t0) = notifyTask c t0 := by
      intro t0
      cases h : t0.status with
      | waiting c2 =>
        by_cases hc : c2 = c
        · simp [notifyTask, h, hc]
        · simp [notifyTask, h, hc]
      | runnable => simp [notifyTask, h]
      | completed v => simp [notifyTask, h]
    simp only [notify, List.map_map]
    exact List.map_congr_left fun t0 _ => hstep t0
  · intro hs
    simp [notify, notifyTask, hs]
  · intro hs u hu
    rw [show notify c [t] = [{ t with status := .runnable }] from by
      simp [notify, notifyTask, hs]] at hu
    simp [runPass] at hu
    subst hu
    cases hcomp : t.comp t.polls <;> simp [pollTask, hcomp]
  · intro hs c' hcomp hcf
    rw [show notify c [t] = [{ t with status := .runnable }] from by
      simp [notify, notifyTask, hs]]
    simp [runPass, pollTask, hcomp, hcf]
  · intro hs c' hcomp hcf
    simp [pollTask, hs, hcomp, hcf]

/-- Witness for C3: a task waiting on condition 5 is untouched by a pass
with no notification, and `notify 5` makes it runnable. -/
theorem c3_witness :
    pollTask [] (⟨fun _ => PollResult.suspended 5, 3, .waiting 5⟩ : Task Nat) =
      ⟨fun _ => PollResult.suspended 5, 3, .waiting 5⟩ ∧
    notify 5 [(⟨fun _ => PollResult.suspended 5, 3, .waiting 5⟩ : Task Nat)] =
      [⟨fun _ => PollResult.suspended 5, 3, .runnable⟩] :=
  ⟨(c3_wake_coalescing (⟨fun _ => PollResult.suspended 5, 3, .waiting 5⟩ : Task Nat)
      5 [] []).1 rfl (by simp),
   (c3_wake_coalescing (⟨fun _ => PollResult.suspended 5, 3, .waiting 5⟩ : Task Nat)
      5 [] []).2.2.1 rfl⟩

/-- Two perpetually-yielding tasks are each polled exactly once per
pass. -/
theorem passes_two_perpetual {α : Type} (fA fB : Nat → PollResult α)
    (hA : ∀ j, fA j = .yielded) (hB : ∀ j, fB j = .yielded) (n : Nat) :
    passes n [mkTask fA, mkTask fB] =
      [{ comp := fA, polls := n, status := .runnable },
       { comp := fB, polls := n, status := .runnable }] := by
  induction n with
  | zero => rfl
  | succ m ih =>
    show runPass [] (passes m [mkTask fA, mkTask fB]) = _
    rw [ih]
    simp [runPass, pollTask, hA m, hB m]

/-- C5: during one pass, every task runnable at pass start is polled
exactly once (its poll count rises by exactly one) and tasks not runnable
at pass start are not polled; a task made runnable during the pass (an
immediate self-wake) still gets exactly one poll that pass; hence two
perpetually-runnable tasks A and B spawned in that order are each polled
exactly once per pass over any `complete_all` drain. -/
theorem c5_pass_fairness {α : Type} (fired : List Cond) (s : ExecState α) (i : Nat)
    (t : Task α) (ht : s[i]? = some t)
    (fA fB : Nat → PollResult α) (hA : ∀ j, fA j = .yielded)
    (hB : ∀ j, fB j = .yielded) :
    (t.status = .runnable →
      (runPass fired s)[i]? = some (pollTask fired t) ∧
        (pollTask fired t).polls = t.polls + 1) ∧
    (∀ v : α, t.status = .completed v → (runPass fired s)[i]? = some t) ∧
    (∀ c, t.status = .waiting c →
      ((runPass fired s)[i]?).map Task.polls = some t.polls) ∧
    (t.status = .runnable → t.comp t.polls = .yielded →
      (runPass fired s)[i]? = some { t with polls := t.polls + 1, status := .runnable }) ∧
    (∀ n, complete_all n [mkTask fA, mkTask fB] =
      [{ comp := fA, polls := n, status := .runnable },
       { comp := fB, polls := n, status := .runnable }]) := by
  have hget : (runPass fired s)[i]? = some (pollTask fired t) := by
    rw [runPass, List.getElem?_map, ht]
    rfl
  refine ⟨?_, ?_, ?_, ?_, ?_⟩
  · intro hs
    refine ⟨hget, ?_⟩
    cases hcomp : t.comp t.polls <;> simp [pollTask, hs, hcomp]
  · intro v hs
    rw [hget]
    simp [pollTask, hs]
  · intro c hs
    rw [hget]
    by_cases hc : c ∈ fired <;> simp [pollTask, hs, hc]
  · intro hs hcomp
    rw [hget]
    simp [pollTask, hs, hcomp]
  · intro n
    rw [complete_all_eq_passes]
    exact passes_two_perpetual fA fB hA hB n

/-- Witness for C5: two perpetually-yielding tasks each accumulate
exactly three polls over a three-pass drain. -/
theorem c5_witness :
    complete_all 3 [mkTask (fun _ => PollResult.yielded (α := Nat)),
        mkTask (fun _ => PollResult.yielded)] =
      [{ comp := fun _ => PollResult.yielded, polls := 3, status := .runnable },
       { comp := fun _ => PollResult.yielded, polls := 3, status := .runnable }] :=
  (c5_pass_fairness [] [⟨fun _ => PollResult.yielded, 0, .runnable⟩] 0
    (⟨fun _ => PollResult.yielded, 0, .runnable⟩ : Task Nat) rfl
    (fun _ => PollResult.yielded) (fun _ => PollResult.yielded)
    (fun _ => rfl) (fun _ => rfl)).2.2.2.2 3

end Vexide
